import Mathlib

/-
Verification of the fuel-route optimizer core (route_planner/optimizer.py and
route_planner/fuel_service.py) against its natural-language specification.

Modelling conventions:
* Python floats are modelled as rationals (ℚ); Python round(x, n) is modelled
  by roundTo n, nearest-with-ties-up rounding to n decimal digits.  The claims
  settled below never hinge on tie behaviour of rounding.
* The haversine great-circle distance (numpy trigonometry in the source) is
  transcendental, hence not computable over ℚ.  Each function that the source
  feeds with haversine distances is therefore parametrised by an abstract
  distance function d : Coordinate → Coordinate → ℚ; the noncomputable real
  formula itself is recorded as haversine_miles.  Theorems assume of d only
  what the haversine formula provides (non-negativity, and for one boundary
  statement, that zero distance means identical endpoints).
* Fallible Python code (IndexError on an empty polyline) is modelled with
  Option: none stands for the raised exception.
-/

namespace RoutePlanner

/-- A latitude/longitude pair in decimal degrees, as carried by the route
polyline and by geocoded stations. -/
structure Coordinate where
  lat : ℚ
  lon : ℚ
deriving DecidableEq, Repr, Inhabited

/-- Abstract point-to-point distance, standing for the haversine formula of
the source (see haversine_miles). -/
abbrev Dist := Coordinate → Coordinate → ℚ

/-- Constant MAX_RANGE_MILES = 500 of optimizer.py. -/
def MAX_RANGE_MILES : ℚ := 500

/-- Constant MPG = 10 of optimizer.py. -/
def MPG : ℚ := 10

/-- Constant REFUEL_INTERVAL_MILES = 400 of optimizer.py. -/
def REFUEL_INTERVAL_MILES : ℚ := 400

/-- Kernel-computable floor of a rational: numerator floor-divided by
denominator.  Bridged to the Mathlib floor by qfloor_eq_floor. -/
def qfloor (q : ℚ) : ℤ := q.num.fdiv (q.den : ℤ)

theorem qfloor_eq_floor (q : ℚ) : qfloor q = ⌊q⌋ := by
  rw [qfloor, Int.fdiv_eq_ediv _ (by positivity), Rat.floor_def]

/-- Model of the Python built-in round(x, n): round to n decimal digits.
Python rounds ties to even on binary floats; over ℚ we round ties up.  No
claim below depends on the direction of a tie. -/
def roundTo (n : ℕ) (q : ℚ) : ℚ := (qfloor (q * 10 ^ n + 1 / 2) : ℚ) / 10 ^ n

/-- Arithmetic mean of a list of rationals, as computed by numpy.mean and by
pandas Series.mean.  On the empty list the source produces NaN; over ℚ the
division by zero yields the junk value 0 (no claim inspects that value). -/
def listMean (l : List ℚ) : ℚ := l.sum / (l.length : ℚ)

/-- Haversine great-circle distance in miles (haversine_miles of optimizer.py
and the vectorised copy in fuel_service.py), Earth radius 3958.8 miles.  Real
trigonometry is noncomputable; the computable development abstracts this
function as a Dist parameter. -/
noncomputable def haversine_miles (lat1 lon1 lat2 lon2 : ℝ) : ℝ :=
  let R : ℝ := 3958.8
  let rlat1 := lat1 * Real.pi / 180
  let rlon1 := lon1 * Real.pi / 180
  let rlat2 := lat2 * Real.pi / 180
  let rlon2 := lon2 * Real.pi / 180
  let dlat := rlat2 - rlat1
  let dlon := rlon2 - rlon1
  let a := Real.sin (dlat / 2) ^ 2 +
    Real.cos rlat1 * Real.cos rlat2 * Real.sin (dlon / 2) ^ 2
  R * 2 * Real.arcsin (Real.sqrt a)

/-- Loop body of get_point_at_distance of optimizer.py: prev is coords[i-1],
the list argument the remaining coordinates, accumulated the distance walked
so far.  When the accumulated distance plus the current segment reaches
target_miles, linearly interpolate inside the segment (fraction 0 when the
segment has zero length); when the coordinates run out, return the last
point (coords[-1] of the source). -/
def gpadGo (d : Dist) (prev : Coordinate) :
    List Coordinate → ℚ → ℚ → Coordinate
  | [], _, _ => prev
  | next :: rest, target_miles, accumulated =>
    if accumulated + d prev next ≥ target_miles then
      { lat := prev.lat +
          (if 0 < d prev next then (target_miles - accumulated) / d prev next else 0) *
          (next.lat - prev.lat),
        lon := prev.lon +
          (if 0 < d prev next then (target_miles - accumulated) / d prev next else 0) *
          (next.lon - prev.lon) }
    else gpadGo d next rest target_miles (accumulated + d prev next)

/-- Model of get_point_at_distance of optimizer.py.  On an empty coordinate
list the source raises IndexError (coords[-1] on an empty list), modelled by
none. -/
def get_point_at_distance (d : Dist) (coords : List Coordinate)
    (target_miles : ℚ) : Option Coordinate :=
  match coords with
  | [] => none
  | c :: rest => some (gpadGo d c rest target_miles 0)

/-- Total length of the polyline from prev through the remaining coordinates:
the sum of consecutive-pair distances, exactly the quantity get_point_at_distance
accumulates. -/
def polylineLenFrom (d : Dist) (prev : Coordinate) : List Coordinate → ℚ
  | [] => 0
  | next :: rest => d prev next + polylineLenFrom d next rest

/-- Cumulative walked distance along the polyline to the point gpadGo returns:
the distance accumulated before the triggering segment plus the interpolation
fraction times the length of that segment; the full polyline length when the
target exceeds the route. -/
def walkedGo (d : Dist) (prev : Coordinate) :
    List Coordinate → ℚ → ℚ → ℚ
  | [], _, accumulated => accumulated
  | next :: rest, target_miles, accumulated =>
    if accumulated + d prev next ≥ target_miles then
      accumulated +
        (if 0 < d prev next then (target_miles - accumulated) / d prev next else 0) *
        d prev next
    else walkedGo d next rest target_miles (accumulated + d prev next)

/-- Cumulative walked distance to the point returned by
get_point_at_distance; none exactly when the sampler raises. -/
def walked_distance (d : Dist) (coords : List Coordinate)
    (target_miles : ℚ) : Option ℚ :=
  match coords with
  | [] => none
  | c :: rest => some (walkedGo d c rest target_miles 0)

/-- One row of the fuel dataframe after coordinate resolution
(get_fuel_df_with_coords of optimizer.py): the catalog columns used by the
core, with lat/lon already attached.  The geocoding side channel (persisted
JSON, state centroids) only fills these two fields and is not itself the
subject of any claim, so the model takes the resolved catalog as input. -/
structure Station where
  opis_id : ℕ
  name : String
  address : String
  city : String
  state : String
  lat : ℚ
  lon : ℚ
  retail_price : ℚ
deriving DecidableEq, Repr, Inhabited

/-- A catalog row together with the column distance_from_point that
find_nearest_cheap_stops attaches before filtering and sorting. -/
structure StationCandidate where
  station : Station
  distance_from_point : ℚ
deriving DecidableEq, Repr, Inhabited

/-- Sort key of fuel_service.py, nearby.sort_values with columns Retail Price
then distance_from_point, both ascending: price first, distance as the tie
breaker. -/
def priceThenDistance (a b : StationCandidate) : Prop :=
  a.station.retail_price < b.station.retail_price ∨
    (a.station.retail_price = b.station.retail_price ∧
      a.distance_from_point ≤ b.distance_from_point)

instance : DecidableRel priceThenDistance := fun a b => by
  unfold priceThenDistance; infer_instance

instance : IsTotal StationCandidate priceThenDistance where
  total a b := by
    rcases lt_trichotomy a.station.retail_price b.station.retail_price with h | h | h
    · exact Or.inl (Or.inl h)
    · rcases le_total a.distance_from_point b.distance_from_point with h2 | h2
      · exact Or.inl (Or.inr ⟨h, h2⟩)
      · exact Or.inr (Or.inr ⟨h.symm, h2⟩)
    · exact Or.inr (Or.inl h)

instance : IsTrans StationCandidate priceThenDistance where
  trans a b c hab hbc := by
    rcases hab with h1 | ⟨h1, h1'⟩ <;> rcases hbc with h2 | ⟨h2, h2'⟩
    · exact Or.inl (h1.trans h2)
    · exact Or.inl (h2 ▸ h1)
    · exact Or.inl (h1 ▸ h2)
    · exact Or.inr ⟨h1.trans h2, h1'.trans h2'⟩

/-- Model of find_nearest_cheap_stops of fuel_service.py: attach the distance
from the query point to every catalog row, keep the rows within radius_miles,
return [] when none remain, otherwise sort ascending by price with distance as
tie breaker and keep the first top_n rows.  The vectorised haversine of the
source is the abstract d. -/
def find_nearest_cheap_stops (d : Dist) (point : Coordinate)
    (fuel_df : List Station) (radius_miles : ℚ) (top_n : ℕ) :
    List StationCandidate :=
  let withDistance := fuel_df.map
    (fun s => { station := s, distance_from_point := d point { lat := s.lat, lon := s.lon } })
  let nearby := withDistance.filter
    (fun c => c.distance_from_point ≤ radius_miles)
  if nearby.isEmpty then []
  else (nearby.insertionSort priceThenDistance).take top_n

/-- An entry of the alternatives list built in optimize_fuel_stops from the
runner-up candidates. -/
structure Alternative where
  name : String
  city : String
  state : String
  price : ℚ
  lat : ℚ
  lon : ℚ
deriving DecidableEq, Repr, Inhabited

/-- A chosen fuel stop as assembled in optimize_fuel_stops: the best candidate
of the winning locator query, with the display-rounded price, the waypoint
distance rounded to one decimal, and the remaining candidates as
alternatives. -/
structure FuelStop where
  opis_id : ℕ
  name : String
  address : String
  city : String
  state : String
  lat : ℚ
  lon : ℚ
  retail_price_per_gallon : ℚ
  miles_from_start : ℚ
  alternatives : List Alternative
deriving DecidableEq, Repr, Inhabited

/-- The alternatives entry built from one runner-up candidate. -/
def altOfCandidate (s : StationCandidate) : Alternative :=
  { name := s.station.name, city := s.station.city, state := s.station.state,
    price := roundTo 3 s.station.retail_price,
    lat := s.station.lat, lon := s.station.lon }

/-- Per-waypoint body of the loop of optimize_fuel_stops: query the locator
with radius 75 and top_n 3; when that returns nothing, retry once with radius
150 and top_n 3; when both are empty record no stop (none), otherwise the
head candidate becomes the FuelStop and the tail its alternatives. -/
def stop_for_waypoint (d : Dist) (fuel_df_geo : List Station)
    (waypoint_miles : ℚ) (point : Coordinate) : Option FuelStop :=
  let first_try := find_nearest_cheap_stops d point fuel_df_geo 75 3
  let nearby_stops :=
    if first_try.isEmpty then find_nearest_cheap_stops d point fuel_df_geo 150 3
    else first_try
  match nearby_stops with
  | [] => none
  | best_stop :: others => some
    { opis_id := best_stop.station.opis_id,
      name := best_stop.station.name,
      address := best_stop.station.address,
      city := best_stop.station.city,
      state := best_stop.station.state,
      lat := best_stop.station.lat,
      lon := best_stop.station.lon,
      retail_price_per_gallon := roundTo 3 best_stop.station.retail_price,
      miles_from_start := roundTo 1 waypoint_miles,
      alternatives := others.map altOfCandidate }

/-- The while loop of optimize_fuel_stops collecting waypoints at
REFUEL_INTERVAL_MILES, 2 * REFUEL_INTERVAL_MILES, ... while strictly below the
total distance; the extra ℕ argument is fuel making the recursion structural,
chosen large enough in waypoints_to_check that the loop always stops through
its own guard. -/
def waypointsLoop (total_distance_miles : ℚ) : ℚ → ℕ → List ℚ
  | _, 0 => []
  | miles, fuel + 1 =>
    if miles < total_distance_miles then
      miles :: waypointsLoop total_distance_miles (miles + REFUEL_INTERVAL_MILES) fuel
    else []

/-- Waypoint selection of optimize_fuel_stops: for a route within
MAX_RANGE_MILES a single waypoint at half the distance, otherwise multiples of
REFUEL_INTERVAL_MILES strictly below the total. -/
def waypoints_to_check (total_distance_miles : ℚ) : List ℚ :=
  if total_distance_miles ≤ MAX_RANGE_MILES then [total_distance_miles * 0.5]
  else waypointsLoop total_distance_miles REFUEL_INTERVAL_MILES
    (⌈total_distance_miles / REFUEL_INTERVAL_MILES⌉₊)

/-- One per-segment cost row of optimize_fuel_stops. -/
structure Segment where
  from_miles : ℚ
  to_miles : ℚ
  segment_miles : ℚ
  gallons_needed : ℚ
  cost_usd : ℚ
deriving DecidableEq, Repr, Inhabited

/-- The per-stop segment loop of optimize_fuel_stops: prev_miles starts at 0
and becomes the miles_from_start of each stop in turn; each row spans
prev_miles to the miles_from_start of the current stop and prices the fuel at
the retail price of that (ending) stop. -/
def segmentsGo : List FuelStop → ℚ → List Segment
  | [], _ => []
  | stop :: rest, prev_miles =>
    { from_miles := prev_miles,
      to_miles := stop.miles_from_start,
      segment_miles := roundTo 1 (stop.miles_from_start - prev_miles),
      gallons_needed := roundTo 2 ((stop.miles_from_start - prev_miles) / MPG),
      cost_usd := roundTo 2
        ((stop.miles_from_start - prev_miles) / MPG * stop.retail_price_per_gallon) } ::
      segmentsGo rest stop.miles_from_start

/-- The trailing segment of optimize_fuel_stops, from the last stop to the
destination, priced at the retail price of the last stop; emitted only when at
least one stop exists. -/
def trailingSegments (fuel_stops : List FuelStop)
    (total_distance_miles : ℚ) : List Segment :=
  match fuel_stops.getLast? with
  | none => []
  | some last =>
    [{ from_miles := last.miles_from_start,
       to_miles := roundTo 1 total_distance_miles,
       segment_miles := roundTo 1 (total_distance_miles - last.miles_from_start),
       gallons_needed := roundTo 2 ((total_distance_miles - last.miles_from_start) / MPG),
       cost_usd := roundTo 2
         ((total_distance_miles - last.miles_from_start) / MPG *
           last.retail_price_per_gallon) }]

/-- Average price charged: the mean of the prices of the chosen stops when any
exist, otherwise the fallback (the catalog-wide mean supplied by the
caller). -/
def avgPrice (fuel_stops : List FuelStop) (fallback_avg_price : ℚ) : ℚ :=
  if fuel_stops.isEmpty then fallback_avg_price
  else listMean (fuel_stops.map (fun s => s.retail_price_per_gallon))

/-- The result dictionary of optimize_fuel_stops. -/
structure OptResult where
  fuel_stops : List FuelStop
  total_gallons : ℚ
  total_distance_miles : ℚ
  avg_price_per_gallon : ℚ
  total_fuel_cost_usd : ℚ
  segments : List Segment
  vehicle_range_miles : ℚ
  mpg : ℚ
deriving DecidableEq, Repr, Inhabited

/-- Cost aggregation of optimize_fuel_stops (everything after the stop list is
assembled): total gallons from total distance over MPG, average price from the
chosen stops or the fallback, total cost as gallons times average price, the
per-stop segment rows, and the trailing segment when stops exist. -/
def aggregate (fuel_stops : List FuelStop) (total_distance_miles : ℚ)
    (fallback_avg_price : ℚ) : OptResult :=
  { fuel_stops := fuel_stops,
    total_gallons := roundTo 2 (total_distance_miles / MPG),
    total_distance_miles := roundTo 1 total_distance_miles,
    avg_price_per_gallon := roundTo 3 (avgPrice fuel_stops fallback_avg_price),
    total_fuel_cost_usd := roundTo 2
      (total_distance_miles / MPG * avgPrice fuel_stops fallback_avg_price),
    segments := segmentsGo fuel_stops 0 ++ trailingSegments fuel_stops total_distance_miles,
    vehicle_range_miles := MAX_RANGE_MILES,
    mpg := MPG }

/-- Model of optimize_fuel_stops of optimizer.py.  The source resolves
coordinates onto the catalog (get_fuel_df_with_coords, pure bookkeeping,
always succeeds), walks the waypoints sampling a point and choosing a stop for
each, then aggregates costs.  The waypoint list is never empty, so with an
empty polyline the very first get_point_at_distance call raises IndexError and
no result is produced: modelled by none exactly when route_coords is empty. -/
def optimize_fuel_stops (d : Dist) (route_coords : List Coordinate)
    (total_distance_miles : ℚ) (fuel_df : List Station) : Option OptResult :=
  match route_coords with
  | [] => none
  | c :: rest =>
    some (aggregate
      ((waypoints_to_check total_distance_miles).filterMap
        (fun w => stop_for_waypoint d fuel_df w (gpadGo d c rest w 0)))
      total_distance_miles
      (listMean (fuel_df.map (fun s => s.retail_price))))

/-! Helper lemmas about the route sampler. -/

theorem roundTo_def_floor (n : ℕ) (q : ℚ) :
    roundTo n q = ((⌊q * 10 ^ n + 1 / 2⌋ : ℤ) : ℚ) / 10 ^ n := by
  rw [roundTo, qfloor_eq_floor]

theorem polylineLenFrom_nonneg (d : Dist) (hd : ∀ a b, 0 ≤ d a b) :
    ∀ (rest : List Coordinate) (prev : Coordinate), 0 ≤ polylineLenFrom d prev rest
  | [], _ => le_refl 0
  | next :: rest, prev =>
    add_nonneg (hd prev next) (polylineLenFrom_nonneg d hd rest next)

theorem getLast_of_len_zero (d : Dist) (hd : ∀ a b, 0 ≤ d a b)
    (hdz : ∀ a b, d a b = 0 → a = b) :
    ∀ (rest : List Coordinate) (prev : Coordinate),
      polylineLenFrom d prev rest = 0 →
      (prev :: rest).getLast (List.cons_ne_nil _ _) = prev := by
  intro rest
  induction rest with
  | nil => intro prev _; rfl
  | cons next r ih =>
    intro prev h
    rw [polylineLenFrom] at h
    have hs : d prev next = 0 := le_antisymm (by
      nlinarith [polylineLenFrom_nonneg d hd r next]) (hd prev next)
    have hrest : polylineLenFrom d next r = 0 := by linarith [hd prev next]
    have := ih next hrest
    rw [List.getLast_cons (List.cons_ne_nil _ _), this, hdz prev next hs]

theorem gpadGo_reaches_total (d : Dist) (hd : ∀ a b, 0 ≤ d a b)
    (hdz : ∀ a b, d a b = 0 → a = b) :
    ∀ (rest : List Coordinate) (prev : Coordinate) (acc : ℚ),
      gpadGo d prev rest (acc + polylineLenFrom d prev rest) acc =
        (prev :: rest).getLast (List.cons_ne_nil _ _) := by
  intro rest
  induction rest with
  | nil => intro prev acc; rfl
  | cons next r ih =>
    intro prev acc
    rw [polylineLenFrom, gpadGo]
    have hL : 0 ≤ polylineLenFrom d next r := polylineLenFrom_nonneg d hd r next
    rcases eq_or_lt_of_le hL with hL0 | hLpos
    · rw [if_pos (by linarith)]
      have hlast : (next :: r).getLast (List.cons_ne_nil _ _) = next :=
        getLast_of_len_zero d hd hdz r next hL0.symm
      rw [List.getLast_cons (List.cons_ne_nil _ _), hlast]
      rcases eq_or_lt_of_le (hd prev next) with hs | hs
      · rw [if_neg (by rw [← hs]; exact lt_irrefl 0)]
        simp [hdz prev next hs.symm]
      · rw [if_pos hs]
        have hrem : acc + (d prev next + polylineLenFrom d next r) - acc = d prev next := by
          rw [← hL0]; ring
        rw [hrem, div_self (ne_of_gt hs)]
        cases next
        simp
    · rw [if_neg (by simp only [not_le]; linarith)]
      have harr : acc + (d prev next + polylineLenFrom d next r) =
          (acc + d prev next) + polylineLenFrom d next r := by ring
      rw [harr, ih next (acc + d prev next),
        List.getLast_cons (List.cons_ne_nil _ _)]

theorem gpadGo_exceeds (d : Dist) (hd : ∀ a b, 0 ≤ d a b) :
    ∀ (rest : List Coordinate) (prev : Coordinate) (acc target : ℚ),
      acc + polylineLenFrom d prev rest < target →
      gpadGo d prev rest target acc =
        (prev :: rest).getLast (List.cons_ne_nil _ _) := by
  intro rest
  induction rest with
  | nil => intro prev acc target _; rfl
  | cons next r ih =>
    intro prev acc target h
    rw [polylineLenFrom] at h
    have hL : 0 ≤ polylineLenFrom d next r := polylineLenFrom_nonneg d hd r next
    rw [gpadGo, if_neg (by simp only [not_le]; linarith)]
    rw [List.getLast_cons (List.cons_ne_nil _ _)]
    exact ih next (acc + d prev next) target (by linarith)

theorem walkedGo_lower_bound (d : Dist) (hd : ∀ a b, 0 ≤ d a b) :
    ∀ (rest : List Coordinate) (prev : Coordinate) (acc target : ℚ),
      min target acc ≤ walkedGo d prev rest target acc := by
  intro rest
  induction rest with
  | nil => intro prev acc target; exact min_le_right _ _
  | cons next r ih =>
    intro prev acc target
    rw [walkedGo]
    by_cases h : acc + d prev next ≥ target
    · rw [if_pos h]
      by_cases hs : 0 < d prev next
      · rw [if_pos hs, div_mul_cancel₀ _ (ne_of_gt hs)]
        calc min target acc ≤ target := min_le_left _ _
        _ = acc + (target - acc) := by ring
      · rw [if_neg hs]
        simp only [zero_mul, add_zero]
        exact min_le_right target acc
    · rw [if_neg h]
      calc min target acc ≤ min target (acc + d prev next) :=
            min_le_min (le_refl _) (by linarith [hd prev next])
      _ ≤ _ := ih next (acc + d prev next) target

theorem walkedGo_mono (d : Dist) (hd : ∀ a b, 0 ≤ d a b) :
    ∀ (rest : List Coordinate) (prev : Coordinate) (acc t1 t2 : ℚ),
      t1 ≤ t2 →
      walkedGo d prev rest t1 acc ≤ walkedGo d prev rest t2 acc := by
  intro rest
  induction rest with
  | nil => intro prev acc t1 t2 _; exact le_refl _
  | cons next r ih =>
    intro prev acc t1 t2 h12
    rw [walkedGo, walkedGo]
    by_cases h2 : acc + d prev next ≥ t2
    · rw [if_pos h2, if_pos (le_trans h12 h2)]
      by_cases hs : 0 < d prev next
      · rw [if_pos hs, if_pos hs, div_mul_cancel₀ _ (ne_of_gt hs),
          div_mul_cancel₀ _ (ne_of_gt hs)]
        linarith
      · rw [if_neg hs, if_neg hs]
    · rw [if_neg h2]
      by_cases h1 : acc + d prev next ≥ t1
      · rw [if_pos h1]
        have hlow : min t2 (acc + d prev next) ≤ walkedGo d next r t2 (acc + d prev next) :=
          walkedGo_lower_bound d hd r next (acc + d prev next) t2
        rw [min_eq_right (by linarith)] at hlow
        by_cases hs : 0 < d prev next
        · rw [if_pos hs, div_mul_cancel₀ _ (ne_of_gt hs)]
          linarith
        · rw [if_neg hs]
          have := hd prev next
          linarith
      · rw [if_neg h1]
        exact ih next (acc + d prev next) t1 t2 h12

/-- Pointwise extensionality for coordinates. -/
theorem Coordinate.ext' (a b : Coordinate)
    (h1 : a.lat = b.lat) (h2 : a.lon = b.lon) : a = b := by
  cases a; cases b; simp_all

/-- A concrete computable distance function used to instantiate theorems whose
hypotheses only ask for non-negativity and definiteness (both enjoyed by the
haversine formula on its intended domain): squared euclidean distance on the
coordinate plane. -/
def dTest : Dist := fun a b => (a.lat - b.lat) ^ 2 + (a.lon - b.lon) ^ 2

theorem dTest_nonneg : ∀ a b, 0 ≤ dTest a b := by
  intro a b
  unfold dTest
  positivity

theorem dTest_definite : ∀ a b, dTest a b = 0 → a = b := by
  intro a b h
  unfold dTest at h
  have h1 : (a.lat - b.lat) ^ 2 = 0 := by
    nlinarith [sq_nonneg (a.lat - b.lat), sq_nonneg (a.lon - b.lon)]
  have h2 : (a.lon - b.lon) ^ 2 = 0 := by
    nlinarith [sq_nonneg (a.lat - b.lat), sq_nonneg (a.lon - b.lon)]
  exact Coordinate.ext' a b
    (sub_eq_zero.mp (pow_eq_zero_iff (by norm_num : (2:ℕ) ≠ 0) |>.mp h1))
    (sub_eq_zero.mp (pow_eq_zero_iff (by norm_num : (2:ℕ) ≠ 0) |>.mp h2))

/-- C9: boundary behaviour of the route sampler.  For every non-empty
polyline, sampling at distance 0 returns the first coordinate and sampling at
the total polyline length returns the last coordinate; for any target beyond
the total length the final point is returned; a one-point polyline returns its
single point for any target; and a zero-length triggering segment uses
interpolation fraction 0 (no division by zero), returning the segment start.
The distance function is assumed non-negative, and zero only on identical
points. -/
theorem claim_C9_sampler_boundaries (d : Dist) (hd : ∀ a b, 0 ≤ d a b)
    (hdz : ∀ a b, d a b = 0 → a = b) :
    (∀ (c : Coordinate) (rest : List Coordinate),
        get_point_at_distance d (c :: rest) 0 = some c)
  ∧ (∀ (c : Coordinate) (rest : List Coordinate),
        get_point_at_distance d (c :: rest) (polylineLenFrom d c rest) =
          some ((c :: rest).getLast (List.cons_ne_nil _ _)))
  ∧ (∀ (c : Coordinate) (rest : List Coordinate) (target : ℚ),
        polylineLenFrom d c rest < target →
        get_point_at_distance d (c :: rest) target =
          some ((c :: rest).getLast (List.cons_ne_nil _ _)))
  ∧ (∀ (c : Coordinate) (target : ℚ),
        get_point_at_distance d [c] target = some c)
  ∧ (∀ (prev next : Coordinate) (rest : List Coordinate) (target acc : ℚ),
        d prev next = 0 → target ≤ acc →
        gpadGo d prev (next :: rest) target acc = prev) := by
  refine ⟨?_, ?_, ?_, ?_, ?_⟩
  · intro c rest
    cases rest with
    | nil => rfl
    | cons next r =>
      simp only [get_point_at_distance, gpadGo]
      rw [if_pos (by have := hd c next; linarith)]
      simp
  · intro c rest
    have h := gpadGo_reaches_total d hd hdz rest c 0
    rw [zero_add] at h
    simp only [get_point_at_distance]
    rw [h]
  · intro c rest target ht
    have h := gpadGo_exceeds d hd rest c 0 target (by linarith)
    simp only [get_point_at_distance]
    rw [h]
  · intro c target; rfl
  · intro prev next rest target acc h0 hta
    rw [gpadGo, if_pos (by rw [h0]; linarith), h0]
    simp

/-- Witness for C9, the one-point polyline clause at a concrete input. -/
theorem claim_C9_witness :
    get_point_at_distance dTest [{ lat := 3, lon := 4 }] 7 =
      some { lat := 3, lon := 4 } :=
  (claim_C9_sampler_boundaries dTest dTest_nonneg dTest_definite).2.2.2.1
    { lat := 3, lon := 4 } 7

/-- C10: the route sampler is monotone: for a non-negative distance function
and targets t1 ≤ t2, the cumulative walked distance along the polyline to the
point returned for t1 is at most the one to the point returned for t2. -/
theorem claim_C10_sampler_monotone (d : Dist) (hd : ∀ a b, 0 ≤ d a b)
    (c : Coordinate) (rest : List Coordinate) (t1 t2 : ℚ) (h12 : t1 ≤ t2) :
    (walked_distance d (c :: rest) t1).getD 0 ≤
      (walked_distance d (c :: rest) t2).getD 0 := by
  simp only [walked_distance, Option.getD_some]
  exact walkedGo_mono d hd rest c 0 t1 t2 h12

/-- Witness for C10 at a concrete polyline and targets. -/
theorem claim_C10_witness :
    (walked_distance dTest [{ lat := 0, lon := 0 }, { lat := 2, lon := 0 }] 1).getD 0 ≤
      (walked_distance dTest [{ lat := 0, lon := 0 }, { lat := 2, lon := 0 }] 3).getD 0 :=
  claim_C10_sampler_monotone dTest dTest_nonneg { lat := 0, lon := 0 }
    [{ lat := 2, lon := 0 }] 1 3 (by norm_num)

/-! Helper lemmas about the station locator. -/

theorem mem_find_nearest (d : Dist) (point : Coordinate) (fuel_df : List Station)
    (radius_miles : ℚ) (top_n : ℕ) (c : StationCandidate)
    (hc : c ∈ find_nearest_cheap_stops d point fuel_df radius_miles top_n) :
    c.station ∈ fuel_df ∧
      c.distance_from_point = d point { lat := c.station.lat, lon := c.station.lon } ∧
      c.distance_from_point ≤ radius_miles := by
  rw [find_nearest_cheap_stops] at hc
  split_ifs at hc with hE
  · simp at hc
  · have h1 : c ∈ (fuel_df.map (fun s =>
        { station := s,
          distance_from_point := d point { lat := s.lat, lon := s.lon } :
            StationCandidate })).filter
        (fun c => c.distance_from_point ≤ radius_miles) :=
      (List.perm_insertionSort priceThenDistance _).subset
        ((List.take_sublist _ _).subset hc)
    rcases List.mem_filter.mp h1 with ⟨hw, hp⟩
    rcases List.mem_map.mp hw with ⟨s, hs, rfl⟩
    exact ⟨hs, rfl, by simpa using hp⟩

/-- C3: the station locator returns only stations within the given radius of
the query point (distance measured by the supplied point-to-station distance
function, the vectorised haversine in the source), sorted ascending by price
with ties broken by ascending distance, truncated to at most top_n results;
when no station lies within the radius it returns the empty list rather than
failing. -/
theorem claim_C3_locator (d : Dist) (point : Coordinate) (fuel_df : List Station)
    (radius_miles : ℚ) (top_n : ℕ) :
    (∀ c ∈ find_nearest_cheap_stops d point fuel_df radius_miles top_n,
        c.station ∈ fuel_df ∧
        c.distance_from_point = d point { lat := c.station.lat, lon := c.station.lon } ∧
        c.distance_from_point ≤ radius_miles)
  ∧ List.Sorted priceThenDistance
      (find_nearest_cheap_stops d point fuel_df radius_miles top_n)
  ∧ (find_nearest_cheap_stops d point fuel_df radius_miles top_n).length ≤ top_n
  ∧ ((∀ s ∈ fuel_df, ¬ d point { lat := s.lat, lon := s.lon } ≤ radius_miles) →
      find_nearest_cheap_stops d point fuel_df radius_miles top_n = []) := by
  refine ⟨fun c hc => mem_find_nearest d point fuel_df radius_miles top_n c hc,
    ?_, ?_, ?_⟩
  · rw [find_nearest_cheap_stops]
    split_ifs with hE
    · exact List.sorted_nil
    · exact List.Pairwise.sublist (List.take_sublist _ _)
        (List.sorted_insertionSort priceThenDistance _)
  · rw [find_nearest_cheap_stops]
    split_ifs with hE
    · simp
    · exact List.length_take_le _ _
  · intro hall
    rw [find_nearest_cheap_stops]
    have hnil : (fuel_df.map (fun s =>
        { station := s,
          distance_from_point := d point { lat := s.lat, lon := s.lon } :
            StationCandidate })).filter
        (fun c => c.distance_from_point ≤ radius_miles) = [] := by
      rw [List.filter_eq_nil_iff]
      intro a ha
      rcases List.mem_map.mp ha with ⟨s, hs, rfl⟩
      simpa using hall s hs
    rw [hnil]
    rfl

/-! Helper lemmas about the waypoint loop and the planner. -/

theorem refuel_pos : (0 : ℚ) < REFUEL_INTERVAL_MILES := by
  norm_num [REFUEL_INTERVAL_MILES]

theorem waypointsLoop_mem (total : ℚ) :
    ∀ (fuel : ℕ) (miles x : ℚ),
      x ∈ waypointsLoop total miles fuel ↔
        ∃ j : ℕ, j < fuel ∧ x = miles + REFUEL_INTERVAL_MILES * j ∧ x < total := by
  intro fuel
  induction fuel with
  | zero => intro miles x; simp [waypointsLoop]
  | succ fuel ih =>
    intro miles x
    rw [waypointsLoop]
    by_cases hm : miles < total
    · rw [if_pos hm, List.mem_cons, ih (miles + REFUEL_INTERVAL_MILES)]
      constructor
      · rintro (rfl | ⟨j, hj, rfl, hx⟩)
        · exact ⟨0, Nat.succ_pos _, by push_cast; ring, hm⟩
        · exact ⟨j + 1, by omega, by push_cast; ring, hx⟩
      · rintro ⟨j, hj, rfl, hx⟩
        cases j with
        | zero => left; push_cast; ring
        | succ j => right; exact ⟨j, by omega, by push_cast; ring, hx⟩
    · rw [if_neg hm]
      simp only [List.not_mem_nil, false_iff, not_exists, not_and]
      rintro j - rfl
      intro hx
      have h1 : (0 : ℚ) ≤ REFUEL_INTERVAL_MILES * j :=
        mul_nonneg (le_of_lt refuel_pos) (Nat.cast_nonneg j)
      have h2 : total ≤ miles := le_of_not_lt hm
      linarith

theorem waypointsLoop_chain (total : ℚ) :
    ∀ (fuel : ℕ) (miles : ℚ),
      List.Chain' (· < ·) (waypointsLoop total miles fuel) := by
  intro fuel
  induction fuel with
  | zero => intro miles; exact List.chain'_nil
  | succ fuel ih =>
    intro miles
    rw [waypointsLoop]
    split_ifs with hm
    · refine List.chain'_cons'.mpr ⟨?_, ih (miles + REFUEL_INTERVAL_MILES)⟩
      intro y hy
      rcases (waypointsLoop_mem total fuel (miles + REFUEL_INTERVAL_MILES) y).mp
        (List.mem_of_mem_head? hy) with ⟨j, -, rfl, -⟩
      have h1 : (0 : ℚ) ≤ REFUEL_INTERVAL_MILES * j :=
        mul_nonneg (le_of_lt refuel_pos) (Nat.cast_nonneg j)
      linarith [refuel_pos]
    · exact List.chain'_nil

theorem roundTo_one_natCast (n : ℕ) : roundTo 1 ((n : ℚ)) = n := by
  rw [roundTo_def_floor]
  have h1 : (n : ℚ) * 10 ^ 1 + 1 / 2 = ((10 * n : ℤ) : ℚ) + 1 / 2 := by
    push_cast; ring
  rw [h1, Int.floor_int_add]
  have h2 : ⌊(1 / 2 : ℚ)⌋ = 0 := by norm_num
  rw [h2]
  push_cast
  ring

theorem roundTo_one_refuel (k : ℕ) :
    roundTo 1 (REFUEL_INTERVAL_MILES * ((k : ℚ) + 1)) =
      REFUEL_INTERVAL_MILES * ((k : ℚ) + 1) := by
  have h1 : REFUEL_INTERVAL_MILES * ((k : ℚ) + 1) = ((400 * (k + 1) : ℕ) : ℚ) := by
    rw [REFUEL_INTERVAL_MILES]; push_cast; ring
  rw [h1, roundTo_one_natCast]

theorem stop_for_waypoint_miles (d : Dist) (fuel_df : List Station)
    (waypoint_miles : ℚ) (point : Coordinate) (s : FuelStop)
    (h : stop_for_waypoint d fuel_df waypoint_miles point = some s) :
    s.miles_from_start = roundTo 1 waypoint_miles := by
  simp only [stop_for_waypoint] at h
  split at h
  · exact absurd h (by simp)
  · cases h; rfl

theorem stops_miles_sublist (d : Dist) (fuel_df : List Station)
    (pt : ℚ → Coordinate) :
    ∀ wps : List ℚ,
      ((wps.filterMap
          (fun w => stop_for_waypoint d fuel_df w (pt w))).map
        (fun s => s.miles_from_start)).Sublist
        (wps.map (fun w => roundTo 1 w)) := by
  intro wps
  induction wps with
  | nil => simp
  | cons w ws ih =>
    rw [List.map_cons]
    rcases hsw : stop_for_waypoint d fuel_df w (pt w) with _ | s
    · rw [@List.filterMap_cons_none _ _
        (fun w => stop_for_waypoint d fuel_df w (pt w)) w ws hsw]
      exact ih.cons _
    · rw [@List.filterMap_cons_some _ _
        (fun w => stop_for_waypoint d fuel_df w (pt w)) w ws s hsw, List.map_cons,
        stop_for_waypoint_miles d fuel_df w (pt w) s hsw]
      exact ih.cons₂ _

theorem waypoints_roundTo_pairwise (total : ℚ) :
    List.Pairwise (· < ·)
      ((waypoints_to_check total).map (fun w => roundTo 1 w)) := by
  rw [waypoints_to_check]
  split_ifs with hT
  · simp
  · rw [List.pairwise_map]
    have hp : List.Pairwise (· < ·)
        (waypointsLoop total REFUEL_INTERVAL_MILES
          ⌈total / REFUEL_INTERVAL_MILES⌉₊) :=
      List.chain'_iff_pairwise.mp (waypointsLoop_chain total _ _)
    refine List.Pairwise.imp_of_mem ?_ hp
    intro a b ha hb hab
    rcases (waypointsLoop_mem total _ _ a).mp ha with ⟨j, -, rfl, -⟩
    rcases (waypointsLoop_mem total _ _ b).mp hb with ⟨i, -, rfl, -⟩
    have e1 : REFUEL_INTERVAL_MILES + REFUEL_INTERVAL_MILES * (j : ℚ) =
        REFUEL_INTERVAL_MILES * ((j : ℚ) + 1) := by ring
    have e2 : REFUEL_INTERVAL_MILES + REFUEL_INTERVAL_MILES * (i : ℚ) =
        REFUEL_INTERVAL_MILES * ((i : ℚ) + 1) := by ring
    rw [e1, e2, roundTo_one_refuel, roundTo_one_refuel, ← e1, ← e2]
    exact hab

/-- C4: waypoint selection of the planner.  For a total distance at most
MAX_RANGE_MILES the planner considers exactly one waypoint at half the total;
otherwise exactly the positive multiples of REFUEL_INTERVAL_MILES strictly
below the total, in increasing order (450 gives [225], 1000 gives [400, 800]);
consequently the FuelStop list the planner returns is strictly increasing in
miles_from_start. -/
theorem claim_C4_waypoints (total : ℚ) :
    (total ≤ MAX_RANGE_MILES → waypoints_to_check total = [total * 0.5])
  ∧ (MAX_RANGE_MILES < total → ∀ x : ℚ,
      (x ∈ waypoints_to_check total ↔
        ∃ k : ℕ, x = REFUEL_INTERVAL_MILES * ((k : ℚ) + 1) ∧ x < total))
  ∧ List.Chain' (· < ·) (waypoints_to_check total)
  ∧ waypoints_to_check 450 = [225]
  ∧ waypoints_to_check 1000 = [400, 800]
  ∧ (∀ (d : Dist) (fuel_df : List Station) (c : Coordinate)
      (rest : List Coordinate) (res : OptResult),
      optimize_fuel_stops d (c :: rest) total fuel_df = some res →
      List.Pairwise (· < ·)
        (res.fuel_stops.map (fun s => s.miles_from_start))) := by
  refine ⟨?_, ?_, ?_, ?_, ?_, ?_⟩
  · intro h
    rw [waypoints_to_check, if_pos h]
  · intro hT x
    rw [waypoints_to_check, if_neg (not_le.mpr hT),
      waypointsLoop_mem total _ REFUEL_INTERVAL_MILES x]
    constructor
    · rintro ⟨j, -, rfl, hx⟩
      exact ⟨j, by ring, hx⟩
    · rintro ⟨k, rfl, hx⟩
      have hkR : ((k : ℚ) + 1) * REFUEL_INTERVAL_MILES < total := by
        rw [mul_comm]; exact hx
      have hceil : k < ⌈total / REFUEL_INTERVAL_MILES⌉₊ := by
        rw [Nat.lt_ceil]
        rw [lt_div_iff₀ refuel_pos]
        nlinarith [refuel_pos]
      exact ⟨k, hceil, by ring, hx⟩
  · rw [waypoints_to_check]
    split_ifs with hT
    · exact List.chain'_singleton _
    · exact waypointsLoop_chain total _ _
  · rw [waypoints_to_check, if_pos (by norm_num [MAX_RANGE_MILES])]
    norm_num
  · rw [waypoints_to_check, if_neg (by norm_num [MAX_RANGE_MILES])]
    have hceil : ⌈(1000 : ℚ) / REFUEL_INTERVAL_MILES⌉₊ = 3 := by
      rw [REFUEL_INTERVAL_MILES, Nat.ceil_eq_iff (by norm_num)]
      norm_num
    rw [hceil]
    norm_num [waypointsLoop, REFUEL_INTERVAL_MILES]
  · intro d fuel_df c rest res h
    simp only [optimize_fuel_stops] at h
    cases h
    exact List.Pairwise.sublist
      (stops_miles_sublist d fuel_df (fun w => gpadGo d c rest w 0) _)
      (waypoints_roundTo_pairwise total)

/-! Helper lemmas about the cost aggregator. -/

theorem segmentsGo_length :
    ∀ (stops : List FuelStop) (prev_miles : ℚ),
      (segmentsGo stops prev_miles).length = stops.length
  | [], _ => rfl
  | _ :: rest, _ => by
    rw [segmentsGo, List.length_cons, List.length_cons, segmentsGo_length rest]

theorem segmentsGo_head_from (stops : List FuelStop) (prev_miles : ℚ) :
    ∀ seg ∈ (segmentsGo stops prev_miles).head?, seg.from_miles = prev_miles := by
  cases stops with
  | nil => intro seg h; simp [segmentsGo] at h
  | cons s rest =>
    intro seg h
    rw [segmentsGo] at h
    simp only [List.head?_cons, Option.mem_def, Option.some.injEq] at h
    rw [← h]

theorem segmentsGo_chain :
    ∀ (stops : List FuelStop) (prev_miles : ℚ),
      List.Chain' (fun a b => a.to_miles = b.from_miles)
        (segmentsGo stops prev_miles) := by
  intro stops
  induction stops with
  | nil => intro prev; exact List.chain'_nil
  | cons s rest ih =>
    intro prev
    rw [segmentsGo]
    refine List.chain'_cons'.mpr ⟨?_, ih s.miles_from_start⟩
    intro y hy
    exact (segmentsGo_head_from rest s.miles_from_start y hy).symm

theorem getLast?_cons_of_ne_nil {α : Type} (a : α) (l : List α) (h : l ≠ []) :
    (a :: l).getLast? = l.getLast? := by
  cases l with
  | nil => exact absurd rfl h
  | cons b m => exact List.getLast?_cons_cons

theorem segmentsGo_ne_nil (stops : List FuelStop) (prev_miles : ℚ)
    (h : stops ≠ []) : segmentsGo stops prev_miles ≠ [] := by
  cases stops with
  | nil => exact absurd rfl h
  | cons s rest => rw [segmentsGo]; simp

theorem segmentsGo_getLast_to :
    ∀ (stops : List FuelStop) (prev_miles : ℚ),
      ((segmentsGo stops prev_miles).getLast?).map (fun seg => seg.to_miles) =
        (stops.getLast?).map (fun s => s.miles_from_start) := by
  intro stops
  induction stops with
  | nil => intro prev; rfl
  | cons s rest ih =>
    intro prev
    cases rest with
    | nil => simp [segmentsGo]
    | cons s2 r2 =>
      rw [segmentsGo,
        getLast?_cons_of_ne_nil _ _
          (segmentsGo_ne_nil (s2 :: r2) s.miles_from_start (by simp)),
        ih s.miles_from_start, List.getLast?_cons_cons]

theorem segmentsGo_sum :
    ∀ (stops : List FuelStop) (prev_miles : ℚ),
      ((segmentsGo stops prev_miles).map
        (fun seg => seg.to_miles - seg.from_miles)).sum =
        (stops.getLast?.map (fun s => s.miles_from_start)).getD prev_miles -
          prev_miles := by
  intro stops
  induction stops with
  | nil => intro prev; simp [segmentsGo]
  | cons s rest ih =>
    intro prev
    rw [segmentsGo, List.map_cons, List.sum_cons, ih s.miles_from_start]
    cases rest with
    | nil => simp
    | cons s2 r2 =>
      rw [List.getLast?_cons_cons]
      rcases hlast : (s2 :: r2).getLast? with _ | v
      · have hsome := (List.getLast?_isSome (l := s2 :: r2)).mpr (by simp)
        rw [hlast] at hsome
        simp at hsome
      · simp

theorem segmentsGo_cost_rel :
    ∀ (stops : List FuelStop) (prev_miles : ℚ),
      List.Forall₂
        (fun (seg : Segment) (stop : FuelStop) => seg.cost_usd =
          roundTo 2 ((seg.to_miles - seg.from_miles) / MPG *
            stop.retail_price_per_gallon))
        (segmentsGo stops prev_miles) stops := by
  intro stops
  induction stops with
  | nil => intro prev; exact List.Forall₂.nil
  | cons s rest ih =>
    intro prev
    rw [segmentsGo]
    exact List.Forall₂.cons rfl (ih s.miles_from_start)

theorem segmentsGo_to_rel :
    ∀ (stops : List FuelStop) (prev_miles : ℚ),
      List.Forall₂
        (fun (seg : Segment) (stop : FuelStop) =>
          seg.to_miles = stop.miles_from_start)
        (segmentsGo stops prev_miles) stops := by
  intro stops
  induction stops with
  | nil => intro prev; exact List.Forall₂.nil
  | cons s rest ih =>
    intro prev
    rw [segmentsGo]
    exact List.Forall₂.cons rfl (ih s.miles_from_start)

theorem segmentsGo_eq_zip :
    ∀ (stops : List FuelStop) (prev_miles : ℚ),
      segmentsGo stops prev_miles =
        ((prev_miles :: stops.map (fun s => s.miles_from_start)).zip stops).map
          (fun p =>
            { from_miles := p.1,
              to_miles := p.2.miles_from_start,
              segment_miles := roundTo 1 (p.2.miles_from_start - p.1),
              gallons_needed := roundTo 2 ((p.2.miles_from_start - p.1) / MPG),
              cost_usd := roundTo 2
                ((p.2.miles_from_start - p.1) / MPG *
                  p.2.retail_price_per_gallon) }) := by
  intro stops
  induction stops with
  | nil => intro prev; rfl
  | cons s rest ih =>
    intro prev
    rw [segmentsGo, List.map_cons, List.zip_cons_cons, List.map_cons,
      ih s.miles_from_start]

/-- Written from the words of the spec for claim C1: walking the stop list in
order, each segment spans from the previous cumulative distance (0 initially)
to the miles_from_start of the current stop, with gallons equal to the segment
length over MPG and cost equal to gallons times the price of the stop ending
the segment; one trailing segment covers the last stop to the total distance
using the price of the last stop.  Recorded figures carry the display rounding
the source applies. -/
def claimedSegments (stops : List FuelStop) (total_distance_miles : ℚ) :
    List Segment :=
  ((0 :: stops.map (fun s => s.miles_from_start)).zip stops).map
    (fun p =>
      { from_miles := p.1,
        to_miles := p.2.miles_from_start,
        segment_miles := roundTo 1 (p.2.miles_from_start - p.1),
        gallons_needed := roundTo 2 ((p.2.miles_from_start - p.1) / MPG),
        cost_usd := roundTo 2
          ((p.2.miles_from_start - p.1) / MPG * p.2.retail_price_per_gallon) })
  ++ match stops.getLast? with
    | none => []
    | some last =>
      [{ from_miles := last.miles_from_start,
         to_miles := roundTo 1 total_distance_miles,
         segment_miles := roundTo 1 (total_distance_miles - last.miles_from_start),
         gallons_needed :=
           roundTo 2 ((total_distance_miles - last.miles_from_start) / MPG),
         cost_usd := roundTo 2
           ((total_distance_miles - last.miles_from_start) / MPG *
             last.retail_price_per_gallon) }]

theorem aggregate_segments_eq (stops : List FuelStop)
    (total_distance_miles fallback_avg_price : ℚ) :
    (aggregate stops total_distance_miles fallback_avg_price).segments =
      claimedSegments stops total_distance_miles := by
  show segmentsGo stops 0 ++ trailingSegments stops total_distance_miles = _
  rw [claimedSegments, segmentsGo_eq_zip]
  rfl

/-- Concrete fuel stop used in counterexamples and witnesses: 400 miles from
the start, price 3 per gallon. -/
def stopA : FuelStop :=
  { opis_id := 1, name := "a", address := "a", city := "a", state := "aa",
    lat := 0, lon := 0, retail_price_per_gallon := 3, miles_from_start := 400,
    alternatives := [] }

/-- Concrete fuel stop used in counterexamples and witnesses: 800 miles from
the start, price 5 per gallon. -/
def stopB : FuelStop :=
  { opis_id := 2, name := "b", address := "b", city := "b", state := "bb",
    lat := 0, lon := 1, retail_price_per_gallon := 5, miles_from_start := 800,
    alternatives := [] }

/-- Concrete fuel stop used in counterexamples and witnesses: 50 miles from
the start, price 3 per gallon. -/
def stopC : FuelStop :=
  { opis_id := 3, name := "c", address := "c", city := "c", state := "cc",
    lat := 1, lon := 1, retail_price_per_gallon := 3, miles_from_start := 50,
    alternatives := [] }

/-- C1: the aggregator walks the stop list in order, emitting one segment per
stop from the previous cumulative distance (initially 0) to the
miles_from_start of that stop, with gallons equal to segment length over MPG
and cost priced at the stop ending the segment, plus exactly one trailing
segment from the last stop to the total distance priced at the last stop. -/
theorem claim_C1_segment_walk (stops : List FuelStop)
    (total fallback : ℚ) (_h : stops ≠ []) :
    (aggregate stops total fallback).segments = claimedSegments stops total :=
  aggregate_segments_eq stops total fallback

/-- Witness for C1 at a concrete one-stop plan. -/
theorem claim_C1_witness :
    (aggregate [stopC] 100 3).segments = claimedSegments [stopC] 100 :=
  claim_C1_segment_walk [stopC] 100 3 (by simp)

/-- Counterexample to C2 as stated: at two stops (400 miles at price 3, 800
miles at price 5) with total distance 1000, the middle segment is priced at 5,
the price of its ending stop, not at 3, the price of the stop the vehicle just
left; and the leading segment is priced at 3, the price of the first stop, not
at 4, the mean price charged across the plan. -/
theorem claim_C2_counterexample :
    ¬ (((aggregate [stopA, stopB] 1000 4).segments.getD 1 default).cost_usd =
        roundTo 2 ((stopB.miles_from_start - stopA.miles_from_start) / MPG *
          stopA.retail_price_per_gallon))
  ∧ ¬ (((aggregate [stopA, stopB] 1000 4).segments.getD 0 default).cost_usd =
        roundTo 2 (stopA.miles_from_start / MPG *
          listMean (([stopA, stopB] : List FuelStop).map
            (fun s => s.retail_price_per_gallon)))) := by
  constructor <;>
    norm_num [aggregate, segmentsGo, trailingSegments, roundTo_def_floor,
      listMean, MPG, stopA, stopB]

/-- C2 amended: each of the segments paired with the stop list uses the price
of the stop that ends it; the trailing segment runs from the last stop and
uses the price of the last stop (the one leg whose price is the stop just
left); and the leading segment uses the price of the first stop, not the mean
price charged across the plan. -/
theorem claim_C2_amended (stops : List FuelStop) (total fallback : ℚ)
    (h : stops ≠ []) :
    List.Forall₂
      (fun (seg : Segment) (stop : FuelStop) => seg.cost_usd =
        roundTo 2 ((seg.to_miles - seg.from_miles) / MPG *
          stop.retail_price_per_gallon))
      (((aggregate stops total fallback).segments).take stops.length) stops
  ∧ (((aggregate stops total fallback).segments).getLastD default).from_miles =
      (stops.getLast h).miles_from_start
  ∧ (((aggregate stops total fallback).segments).getLastD default).cost_usd =
      roundTo 2 ((total - (stops.getLast h).miles_from_start) / MPG *
        (stops.getLast h).retail_price_per_gallon)
  ∧ (((aggregate stops total fallback).segments).headD default).cost_usd =
      roundTo 2 (((stops.headD default).miles_from_start - 0) / MPG *
        (stops.headD default).retail_price_per_gallon) := by
  have htrail : trailingSegments stops total =
      [{ from_miles := (stops.getLast h).miles_from_start,
         to_miles := roundTo 1 total,
         segment_miles := roundTo 1 (total - (stops.getLast h).miles_from_start),
         gallons_needed :=
           roundTo 2 ((total - (stops.getLast h).miles_from_start) / MPG),
         cost_usd := roundTo 2
           ((total - (stops.getLast h).miles_from_start) / MPG *
             (stops.getLast h).retail_price_per_gallon) }] := by
    rw [trailingSegments, List.getLast?_eq_getLast stops h]
  refine ⟨?_, ?_, ?_, ?_⟩
  · show List.Forall₂ _
      ((segmentsGo stops 0 ++ trailingSegments stops total).take stops.length) stops
    rw [← segmentsGo_length stops 0, List.take_left]
    exact segmentsGo_cost_rel stops 0
  · show ((segmentsGo stops 0 ++ trailingSegments stops total).getLastD default).from_miles = _
    rw [htrail, List.getLastD_concat]
  · show ((segmentsGo stops 0 ++ trailingSegments stops total).getLastD default).cost_usd = _
    rw [htrail, List.getLastD_concat]
  · rcases stops with _ | ⟨s, rest⟩
    · exact absurd rfl h
    · show (((segmentsGo (s :: rest) 0 ++
          trailingSegments (s :: rest) total)).headD default).cost_usd = _
      rw [segmentsGo, List.cons_append]
      simp

/-- Witness for the amended C2, the leading-segment clause at a concrete
two-stop plan. -/
theorem claim_C2_witness :
    (((aggregate [stopA, stopB] 1000 4).segments).headD default).cost_usd =
      roundTo 2 (((([stopA, stopB] : List FuelStop).headD default).miles_from_start - 0) / MPG *
        (([stopA, stopB] : List FuelStop).headD default).retail_price_per_gallon) :=
  (claim_C2_amended [stopA, stopB] 1000 4 (by simp)).2.2.2

/-- Counterexample to C5 as stated: with no stops at all and total distance
100, the aggregator emits no segments, whose lengths therefore sum to 0, not
100; and with one stop at 50 miles and total distance 100.07, the recorded
segment lengths sum to 100.1 (the rounded total), not 100.07. -/
theorem claim_C5_counterexample :
    ((aggregate ([] : List FuelStop) 100 3).segments.map
        (fun seg => seg.to_miles - seg.from_miles)).sum ≠ 100
  ∧ ((aggregate [stopC] (100.07 : ℚ) 3).segments.map
        (fun seg => seg.to_miles - seg.from_miles)).sum ≠ (100.07 : ℚ) := by
  constructor <;>
    norm_num [aggregate, segmentsGo, trailingSegments, roundTo_def_floor,
      stopC]

/-- C5 amended: for every non-empty stop list the segments partition the
interval from 0 to the rounded total distance: the first segment starts at 0,
each of the first segments ends at the miles_from_start of its stop,
consecutive segments share endpoints with no gaps or overlaps, the final
segment ends at the total distance rounded to one decimal, and the segment
lengths sum to that rounded total (hence to the total itself whenever the
total carries at most one decimal). -/
theorem claim_C5_amended (stops : List FuelStop) (total fallback : ℚ)
    (h : stops ≠ []) :
    (((aggregate stops total fallback).segments).headD default).from_miles = 0
  ∧ List.Forall₂
      (fun (seg : Segment) (stop : FuelStop) =>
        seg.to_miles = stop.miles_from_start)
      (((aggregate stops total fallback).segments).take stops.length) stops
  ∧ (((aggregate stops total fallback).segments).getLastD default).to_miles =
      roundTo 1 total
  ∧ List.Chain' (fun a b => a.to_miles = b.from_miles)
      ((aggregate stops total fallback).segments)
  ∧ ((aggregate stops total fallback).segments.map
      (fun seg => seg.to_miles - seg.from_miles)).sum = roundTo 1 total
  ∧ (roundTo 1 total = total →
      ((aggregate stops total fallback).segments.map
        (fun seg => seg.to_miles - seg.from_miles)).sum = total) := by
  have htrail : trailingSegments stops total =
      [{ from_miles := (stops.getLast h).miles_from_start,
         to_miles := roundTo 1 total,
         segment_miles := roundTo 1 (total - (stops.getLast h).miles_from_start),
         gallons_needed :=
           roundTo 2 ((total - (stops.getLast h).miles_from_start) / MPG),
         cost_usd := roundTo 2
           ((total - (stops.getLast h).miles_from_start) / MPG *
             (stops.getLast h).retail_price_per_gallon) }] := by
    rw [trailingSegments, List.getLast?_eq_getLast stops h]
  have hsum : ((aggregate stops total fallback).segments.map
      (fun seg => seg.to_miles - seg.from_miles)).sum = roundTo 1 total := by
    show ((segmentsGo stops 0 ++ trailingSegments stops total).map
      (fun seg => seg.to_miles - seg.from_miles)).sum = _
    rw [List.map_append, List.sum_append, segmentsGo_sum stops 0, htrail,
      List.getLast?_eq_getLast stops h]
    simp only [Option.map_some', Option.getD_some, List.map_cons, List.map_nil,
      List.sum_cons, List.sum_nil]
    ring
  refine ⟨?_, ?_, ?_, ?_, hsum, fun he => hsum.trans he⟩
  · rcases stops with _ | ⟨s, rest⟩
    · exact absurd rfl h
    · show (((segmentsGo (s :: rest) 0 ++
          trailingSegments (s :: rest) total)).headD default).from_miles = 0
      rw [segmentsGo, List.cons_append]
      simp
  · show List.Forall₂ _
      ((segmentsGo stops 0 ++ trailingSegments stops total).take stops.length) stops
    rw [← segmentsGo_length stops 0, List.take_left]
    exact segmentsGo_to_rel stops 0
  · show ((segmentsGo stops 0 ++ trailingSegments stops total).getLastD default).to_miles = _
    rw [htrail, List.getLastD_concat]
  · show List.Chain' _ (segmentsGo stops 0 ++ trailingSegments stops total)
    rw [List.chain'_append]
    refine ⟨segmentsGo_chain stops 0, by rw [htrail]; exact List.chain'_singleton _, ?_⟩
    intro x hx y hy
    have hto := segmentsGo_getLast_to stops 0
    rw [List.getLast?_eq_getLast stops h] at hto
    rw [Option.mem_def] at hx
    have : ((segmentsGo stops 0).getLast?).map (fun seg => seg.to_miles) =
        some x.to_miles := by rw [hx]; rfl
    rw [hto] at this
    simp only [Option.map_some', Option.some.injEq] at this
    rw [htrail] at hy
    simp only [List.head?_cons, Option.mem_def, Option.some.injEq] at hy
    rw [← hy, ← this]

/-- Witness for the amended C5, the segment-length sum clause at a concrete
one-stop plan. -/
theorem claim_C5_witness :
    ((aggregate [stopC] 100 3).segments.map
      (fun seg => seg.to_miles - seg.from_miles)).sum = roundTo 1 100 :=
  (claim_C5_amended [stopC] 100 3 (by simp)).2.2.2.2.1

/-- C6: the aggregator reports total gallons equal to the total distance over
MPG, an average price equal to the mean of the chosen stop prices when any
stop exists and otherwise to the fallback (the mean price over the whole
catalog), and a total cost of total gallons times that average price; with no
stops at all it still reports these totals from the fallback average price,
with an empty segment list. -/
theorem claim_C6_totals (stops : List FuelStop) (total : ℚ)
    (fuel_df : List Station) :
    (aggregate stops total
        (listMean (fuel_df.map (fun s => s.retail_price)))).total_gallons =
      roundTo 2 (total / MPG)
  ∧ (aggregate stops total
        (listMean (fuel_df.map (fun s => s.retail_price)))).avg_price_per_gallon =
      roundTo 3 (avgPrice stops (listMean (fuel_df.map (fun s => s.retail_price))))
  ∧ (stops ≠ [] →
      avgPrice stops (listMean (fuel_df.map (fun s => s.retail_price))) =
        listMean (stops.map (fun s => s.retail_price_per_gallon)))
  ∧ (stops = [] →
      avgPrice stops (listMean (fuel_df.map (fun s => s.retail_price))) =
        listMean (fuel_df.map (fun s => s.retail_price)))
  ∧ (aggregate stops total
        (listMean (fuel_df.map (fun s => s.retail_price)))).total_fuel_cost_usd =
      roundTo 2 (total / MPG *
        avgPrice stops (listMean (fuel_df.map (fun s => s.retail_price))))
  ∧ (stops = [] →
      (aggregate stops total
        (listMean (fuel_df.map (fun s => s.retail_price)))).segments = []) := by
  refine ⟨rfl, rfl, ?_, ?_, rfl, ?_⟩
  · intro hne
    rw [avgPrice, if_neg (by simpa [List.isEmpty_iff] using hne)]
  · rintro rfl
    rfl
  · rintro rfl
    rfl

/-- Concrete station used in counterexamples and witnesses. -/
def testStation : Station :=
  { opis_id := 7, name := "t", address := "t", city := "t", state := "tt",
    lat := 0, lon := 0, retail_price := 3 }

theorem find_nearest_length_le (d : Dist) (point : Coordinate)
    (fuel_df : List Station) (radius_miles : ℚ) (top_n : ℕ) :
    (find_nearest_cheap_stops d point fuel_df radius_miles top_n).length ≤ top_n := by
  rw [find_nearest_cheap_stops]
  split_ifs with hE
  · simp
  · exact List.length_take_le _ _

/-- Counterexample to C7 as stated: the core performs no input validation.
With a valid two-point polyline, a negative total distance and a non-empty
catalog it still returns a result, and with a valid polyline, positive
distance and an empty station catalog it also returns a result; neither
caller-contract violation is surfaced as an error. -/
theorem claim_C7_counterexample :
    (optimize_fuel_stops dTest [{ lat := 0, lon := 0 }, { lat := 0, lon := 1 }]
        (-5) [testStation]).isSome = true
  ∧ (optimize_fuel_stops dTest [{ lat := 0, lon := 0 }, { lat := 0, lon := 1 }]
        100 ([] : List Station)).isSome = true := by
  exact ⟨rfl, rfl⟩

/-- C7 amended: the core fails exactly when the polyline is empty (the index
error the source raises while sampling the first waypoint); for every input
with a non-empty polyline, including a non-positive total distance or an empty
station catalog, it returns a result, and in particular it never fails on
missing stops. -/
theorem claim_C7_amended (d : Dist) (route_coords : List Coordinate)
    (total : ℚ) (fuel_df : List Station) :
    optimize_fuel_stops d route_coords total fuel_df = none ↔
      route_coords = [] := by
  cases route_coords with
  | nil => simp [optimize_fuel_stops]
  | cons c rest => simp [optimize_fuel_stops]

/-- C8: per waypoint the planner queries the locator with radius 75 and top_n
3; exactly when that result is empty it retries once with radius 150 and top_n
3; if both are empty no stop is recorded for the waypoint (no error, the plan
is just shorter); otherwise the top-ranked candidate becomes the FuelStop and
the remaining at most two candidates become its alternatives in rank order. -/
theorem claim_C8_waypoint_stop (d : Dist) (fuel_df : List Station)
    (waypoint_miles : ℚ) (point : Coordinate) :
    (stop_for_waypoint d fuel_df waypoint_miles point = none ↔
      find_nearest_cheap_stops d point fuel_df 75 3 = [] ∧
      find_nearest_cheap_stops d point fuel_df 150 3 = [])
  ∧ (∀ (best : StationCandidate) (others : List StationCandidate),
      (if (find_nearest_cheap_stops d point fuel_df 75 3).isEmpty
        then find_nearest_cheap_stops d point fuel_df 150 3
        else find_nearest_cheap_stops d point fuel_df 75 3) = best :: others →
      stop_for_waypoint d fuel_df waypoint_miles point = some
        { opis_id := best.station.opis_id,
          name := best.station.name,
          address := best.station.address,
          city := best.station.city,
          state := best.station.state,
          lat := best.station.lat,
          lon := best.station.lon,
          retail_price_per_gallon := roundTo 3 best.station.retail_price,
          miles_from_start := roundTo 1 waypoint_miles,
          alternatives := others.map altOfCandidate } ∧
      others.length ≤ 2)
  ∧ (∀ (c : Coordinate) (rest : List Coordinate) (total : ℚ) (res : OptResult),
      optimize_fuel_stops d (c :: rest) total fuel_df = some res →
      res.fuel_stops = (waypoints_to_check total).filterMap
        (fun w => stop_for_waypoint d fuel_df w (gpadGo d c rest w 0))) := by
  refine ⟨?_, ?_, ?_⟩
  · simp only [stop_for_waypoint]
    by_cases hE : (find_nearest_cheap_stops d point fuel_df 75 3).isEmpty
    · rw [if_pos hE]
      have h1 : find_nearest_cheap_stops d point fuel_df 75 3 = [] :=
        List.isEmpty_iff.mp hE
      rcases h2 : find_nearest_cheap_stops d point fuel_df 150 3 with _ | ⟨b, o⟩
      · simp [h1]
      · simp [h1, h2]
    · rw [if_neg hE]
      have h1 : find_nearest_cheap_stops d point fuel_df 75 3 ≠ [] := by
        simpa [List.isEmpty_iff] using hE
      rcases h3 : find_nearest_cheap_stops d point fuel_df 75 3 with _ | ⟨b, o⟩
      · exact absurd h3 h1
      · simp [h3]
  · intro best others hp
    constructor
    · simp only [stop_for_waypoint]
      rw [hp]
    · have hlen := congrArg List.length hp
      have h75 := find_nearest_length_le d point fuel_df 75 3
      have h150 := find_nearest_length_le d point fuel_df 150 3
      by_cases hE : (find_nearest_cheap_stops d point fuel_df 75 3).isEmpty
      · rw [if_pos hE] at hlen
        simp only [List.length_cons] at hlen
        omega
      · rw [if_neg hE] at hlen
        simp only [List.length_cons] at hlen
        omega
  · intro c rest total res h
    simp only [optimize_fuel_stops] at h
    cases h
    rfl

end RoutePlanner
